import Mathlib

/-
Verification development for the trading-bot pipeline (src/bot.py).

The core under study is the dual-source fetch-with-fallback for price and
history, the pandas indicator engine (MA5/MA20, RSI-14, MACD 12/26 with a
9-period signal line) in build_analysis, and the ternary signal rule.

Floats are modelled by an extended-rational type FVal with IEEE-754-style
special values: finite values are exact rationals, plus +inf, -inf and NaN.
All the operations the pipeline performs on the special values (division by
zero, NaN propagation, ordered comparisons that are false on NaN) follow
IEEE semantics; pandas represents a missing/null entry as NaN, so FVal.nan
doubles as the null marker of an indicator snapshot row.
-/

/-- Extended float value: exact rational, plus infinities and NaN, the value
domain of a pandas float64 column as used by bot.py. -/
inductive FVal where
  | fin (q : ℚ)
  | inf
  | ninf
  | nan
deriving DecidableEq

/-- IEEE negation on FVal. -/
def fnegF : FVal → FVal
  | .fin q => .fin (-q)
  | .inf => .ninf
  | .ninf => .inf
  | .nan => .nan

/-- IEEE addition on FVal (NaN propagates, inf + (-inf) = NaN). -/
def faddF : FVal → FVal → FVal
  | .fin a, .fin b => .fin (a + b)
  | .fin _, .inf => .inf
  | .fin _, .ninf => .ninf
  | .inf, .fin _ => .inf
  | .ninf, .fin _ => .ninf
  | .inf, .inf => .inf
  | .ninf, .ninf => .ninf
  | .inf, .ninf => .nan
  | .ninf, .inf => .nan
  | .nan, _ => .nan
  | _, .nan => .nan

/-- IEEE subtraction on FVal, as addition of the negation. -/
def fsubF (a b : FVal) : FVal := faddF a (fnegF b)

/-- IEEE multiplication on FVal (0 * inf = NaN). -/
def fmulF : FVal → FVal → FVal
  | .fin a, .fin b => .fin (a * b)
  | .fin a, .inf => if a = 0 then .nan else if 0 < a then .inf else .ninf
  | .fin a, .ninf => if a = 0 then .nan else if 0 < a then .ninf else .inf
  | .inf, .fin b => if b = 0 then .nan else if 0 < b then .inf else .ninf
  | .ninf, .fin b => if b = 0 then .nan else if 0 < b then .ninf else .inf
  | .inf, .inf => .inf
  | .ninf, .ninf => .inf
  | .inf, .ninf => .ninf
  | .ninf, .inf => .ninf
  | .nan, _ => .nan
  | _, .nan => .nan

/-- IEEE division on FVal: a/0 is signed infinity for a ≠ 0 and NaN for
a = 0 (the dividend zero here is always +0 in the pipeline), finite/inf is
zero, inf/inf and anything with NaN is NaN. -/
def fdivF : FVal → FVal → FVal
  | .fin a, .fin b =>
      if b = 0 then (if a = 0 then .nan else if 0 < a then .inf else .ninf)
      else .fin (a / b)
  | .fin _, .inf => .fin 0
  | .fin _, .ninf => .fin 0
  | .inf, .fin b => if 0 ≤ b then .inf else .ninf
  | .ninf, .fin b => if 0 ≤ b then .ninf else .inf
  | .inf, .inf => .nan
  | .inf, .ninf => .nan
  | .ninf, .inf => .nan
  | .ninf, .ninf => .nan
  | .nan, _ => .nan
  | _, .nan => .nan

/-- IEEE strict less-than on FVal: false whenever either side is NaN. -/
def flt : FVal → FVal → Bool
  | .fin a, .fin b => a < b
  | .fin _, .inf => true
  | .ninf, .fin _ => true
  | .ninf, .inf => true
  | _, _ => false

/-- The ternary trading signal emitted by the Signal Evaluator. -/
inductive Signal where
  | buy
  | sell
  | neutral
deriving DecidableEq

/-- Signal Evaluator, bot.py lines 113-118: BUY when ma5 > ma20 and
macd > signal and rsi < 70; otherwise SELL when ma5 < ma20 and macd < signal
and rsi > 30; otherwise NEUTRAL. Python float comparisons on the last
snapshot row are IEEE comparisons, so a NaN (null) field makes every
comparison involving it false. -/
def signalOf (ma5 ma20 rsi macd msig : FVal) : Signal :=
  if flt ma20 ma5 && flt msig macd && flt rsi (.fin 70) then .buy
  else if flt ma5 ma20 && flt macd msig && flt (.fin 30) rsi then .sell
  else .neutral

/-
Upstream responses and the two Price Source Adapters.
-/

/-- Outcome of one upstream HTTP/library call: either some exception was
raised inside the try block before the payload was extracted (network error,
timeout, JSON parse error, non-success status via raise_for_status), or a
payload was obtained. -/
inductive Fetched (α : Type) where
  | failure
  | ok (payload : α)
deriving DecidableEq

/-- One close-price cell as delivered by an upstream feed: JSON null, a
numeric value (exact rational), or a value on which float conversion raises
(non-numeric string). -/
inductive Cell where
  | null
  | num (q : ℚ)
  | nonNumeric
deriving DecidableEq

/-- Float conversion of a cell as pandas astype(float) performs it on cells
that do not raise: null becomes NaN, a number becomes itself. -/
def cellVal : Cell → FVal
  | .null => .nan
  | .num q => .fin q
  | .nonNumeric => .nan

/-- MOEX history adapter, bot.py lines 30-47 (_moex_history): on any raised
exception the result is an empty frame; otherwise the payload rows (date,
close) are built into a DataFrame and astype(float) is applied to the close
column, which raises on any non-numeric cell (collapsing the whole call to
empty) and turns null cells into NaN rows. No deduplication, sorting or
null-dropping is performed: rows keep upstream order and multiplicity.
Timestamps are modelled as naturals (already-parsed dates). -/
def moex_history : Fetched (List (ℕ × Cell)) → List (ℕ × FVal)
  | .failure => []
  | .ok rows =>
      if rows.any (fun p => decide (p.2 = Cell.nonNumeric)) then []
      else rows.map fun p => (p.1, cellVal p.2)

/-- Yahoo history adapter, bot.py lines 50-55 (_yahoo_history): same
exception-collapses-to-empty contract, and the same astype(float) conversion
of the Close column of the downloaded frame; again no dedup/sort/drop. -/
def yahoo_history : Fetched (List (ℕ × Cell)) → List (ℕ × FVal)
  | .failure => []
  | .ok rows =>
      if rows.any (fun p => decide (p.2 = Cell.nonNumeric)) then []
      else rows.map fun p => (p.1, cellVal p.2)

/-- MOEX price adapter, bot.py lines 63-70 (_moex_price): the payload is the
marketdata.data list of rows (a missing key yields [] via .get defaults).
The expression float(rows[0][0]) if rows and rows[0][0] is not None else None
returns None when rows is empty or the first cell is null; an IndexError on
an empty first row or a ValueError from float() on a non-numeric cell is
caught by the surrounding except and also yields None. -/
def moex_price : Fetched (List (List Cell)) → Option ℚ
  | .failure => none
  | .ok [] => none
  | .ok ([] :: _) => none
  | .ok ((c :: _) :: _) =>
      match c with
      | .null => none
      | .num q => some q
      | .nonNumeric => none

/-- Yahoo price adapter, bot.py lines 73-78 (_yahoo_price): the payload is
the Close column of a one-day history; the last entry is returned when the
frame is non-empty, None otherwise, and any raised exception yields None. -/
def yahoo_price : Fetched (List ℚ) → Option ℚ
  | .failure => none
  | .ok l => l.getLast?

/-
The Aggregator: get_price and get_history, bot.py lines 58-60 and 81-83.
Each is given the two adapter results; the instrumented _t variants
additionally report how many times the Yahoo adapter was invoked (the
Python expressions only evaluate the Yahoo call in their fallback branch).
-/

/-- Python truthiness of the optional price returned by _moex_price: None is
falsy and so is the float 0.0. -/
def truthyPrice : Option ℚ → Bool
  | none => false
  | some q => decide (q ≠ 0)

/-- Aggregator get_price, bot.py lines 81-83: price if price else yahoo. -/
def get_price (moexP yahooP : Option ℚ) : Option ℚ :=
  if truthyPrice moexP then moexP else yahooP

/-- Instrumented get_price: second component counts Yahoo invocations. -/
def get_price_t (moexP yahooP : Option ℚ) : Option ℚ × ℕ :=
  if truthyPrice moexP then (moexP, 0) else (yahooP, 1)

/-- Aggregator get_history, bot.py lines 58-60: df if not df.empty else
yahoo; a DataFrame is empty exactly when it has zero rows. -/
def get_history (moexH yahooH : List (ℕ × FVal)) : List (ℕ × FVal) :=
  if moexH.isEmpty then yahooH else moexH

/-- Instrumented get_history: second component counts Yahoo invocations. -/
def get_history_t (moexH yahooH : List (ℕ × FVal)) :
    List (ℕ × FVal) × ℕ :=
  if moexH.isEmpty then (yahooH, 1) else (moexH, 0)

/-
The Indicator Engine, bot.py lines 93-103, as pandas evaluates it on the
Close column of the aggregated frame.
-/

/-- NaN-propagating sum of a list of FVals (a pandas rolling window whose
count of non-NaN observations falls short of the window length yields NaN,
which coincides with NaN-propagating summation for mean purposes). -/
def fsumF (l : List FVal) : FVal := l.foldr faddF (.fin 0)

/-- pandas Series.rolling(w).mean(): at row i the mean of rows i-w+1..i,
NaN while fewer than w rows exist, and NaN whenever the window contains a
NaN entry. -/
def rollingMeanF (w : ℕ) (xs : List FVal) : List FVal :=
  (List.range xs.length).map fun i =>
    if i + 1 < w then .nan
    else fdivF (fsumF ((List.range w).map fun k => xs.getD (i - k) .nan))
      (.fin (w : ℚ))

/-- pandas Series.diff(): row 0 is NaN, row i is x_i - x_(i-1). -/
def diffF (xs : List FVal) : List FVal :=
  (List.range xs.length).map fun i =>
    if i = 0 then .nan else fsubF (xs.getD i .nan) (xs.getD (i - 1) .nan)

/-- delta.clip(lower=0): negative entries become 0, NaN stays NaN. -/
def fclipLower0 : FVal → FVal
  | .fin q => .fin (max q 0)
  | .inf => .inf
  | .ninf => .fin 0
  | .nan => .nan

/-- delta.clip(upper=0): positive entries become 0, NaN stays NaN. -/
def fclipUpper0 : FVal → FVal
  | .fin q => .fin (min q 0)
  | .inf => .fin 0
  | .ninf => .ninf
  | .nan => .nan

/-- The avg_gain series of bot.py line 96:
delta.clip(lower=0).rolling(14).mean(). -/
def gainSeries (closes : List FVal) : List FVal :=
  rollingMeanF 14 ((diffF closes).map fclipLower0)

/-- The avg_loss series of bot.py line 97:
(-delta.clip(upper=0)).rolling(14).mean(). -/
def lossSeries (closes : List FVal) : List FVal :=
  rollingMeanF 14 (((diffF closes).map fclipUpper0).map fnegF)

/-- bot.py line 99 applied to one rs entry: 100 - 100 / (1 + rs). -/
def rsiFormula (rs : FVal) : FVal :=
  fsubF (.fin 100) (fdivF (.fin 100) (faddF (.fin 1) rs))

/-- The rsi column of bot.py lines 95-99: rs = gain / loss elementwise and
rsi = 100 - 100/(1+rs). -/
def rsiSeries (closes : List FVal) : List FVal :=
  (List.range closes.length).map fun i =>
    rsiFormula (fdivF ((gainSeries closes).getD i .nan)
      ((lossSeries closes).getD i .nan))

/-- One step of pandas ewm(span, adjust=False).mean():
y_i = (1-alpha) * y_(i-1) + alpha * x_i. -/
def emaStep (alpha : ℚ) (prev x : FVal) : FVal :=
  faddF (fmulF (.fin (1 - alpha)) prev) (fmulF (.fin alpha) x)

/-- Recursion of the exponentially weighted mean after the seed row. -/
def emaGo (alpha : ℚ) : FVal → List FVal → List FVal
  | _, [] => []
  | prev, x :: xs =>
      let y := emaStep alpha prev x
      y :: emaGo alpha y xs

/-- pandas Series.ewm(span, adjust=False).mean() with alpha = 2/(span+1):
seeded at the first sample, then the recursive weighting. -/
def emaF (span : ℕ) (xs : List FVal) : List FVal :=
  match xs with
  | [] => []
  | x :: rest => x :: emaGo (2 / ((span : ℚ) + 1)) x rest

/-- The macd column of bot.py lines 100-102: EMA12(close) - EMA26(close). -/
def macdSeries (closes : List FVal) : List FVal :=
  List.zipWith fsubF (emaF 12 closes) (emaF 26 closes)

/-- The signal column of bot.py line 103: EMA9 of the macd column. -/
def macdSignalSeries (closes : List FVal) : List FVal :=
  emaF 9 (macdSeries closes)

/-- df.iloc[-1] for one column: the last entry (the non-empty branch of
build_analysis only evaluates this on non-empty columns). -/
def lastRow (xs : List FVal) : FVal := xs.getLast?.getD .nan

/-- Result of the analysis operation: either the explicit no-data answer of
bot.py line 91, or a report carrying the formatted last row and the signal
line appended in lines 113-118 (HTML formatting abstracted away). -/
inductive Analysis where
  | noData
  | report (lastClose ma5 ma20 rsi macd msig : FVal) (sig : Signal)
deriving DecidableEq

/-- build_analysis, bot.py lines 88-119, as a function of the two adapter
history results: aggregate via get_history, answer noData on an empty frame,
otherwise compute the indicator columns, take the last row and evaluate the
signal rule on it. -/
def build_analysis (moexH yahooH : List (ℕ × FVal)) : Analysis :=
  let df := get_history moexH yahooH
  if df.isEmpty then .noData
  else
    let closes := df.map Prod.snd
    let ma5 := lastRow (rollingMeanF 5 closes)
    let ma20 := lastRow (rollingMeanF 20 closes)
    let rsi := lastRow (rsiSeries closes)
    let macd := lastRow (macdSeries closes)
    let msig := lastRow (macdSignalSeries closes)
    .report (lastRow closes) ma5 ma20 rsi macd msig
      (signalOf ma5 ma20 rsi macd msig)

example : get_price (some 5) (some 7) = some 5 := by decide
example : get_price (some 0) (some 7) = some 7 := by decide
example : get_price none none = none := by decide
example : signalOf (.fin 2) (.fin 1) (.fin 50) (.fin 3) (.fin 1) = .buy := by decide
example : signalOf (.fin 2) (.fin 2) (.fin 50) (.fin 3) (.fin 1) = .neutral := by decide
example : signalOf .nan (.fin 1) (.fin 50) (.fin 3) (.fin 1) = .neutral := by decide

/-
Helper lemmas about the IEEE comparison.
-/

/-- flt on two finite values is the rational strict order. -/
lemma flt_fin_fin (x y : ℚ) : flt (.fin x) (.fin y) = decide (x < y) := rfl

/-- NaN compares false on the left. -/
lemma flt_nan_left (x : FVal) : flt .nan x = false := by cases x <;> rfl

/-- NaN compares false on the right. -/
lemma flt_nan_right (x : FVal) : flt x .nan = false := by cases x <;> rfl

/-- The evaluator on finite fields as a propositional cascade. -/
lemma signalOf_fin_eq (a b r m s : ℚ) :
    signalOf (.fin a) (.fin b) (.fin r) (.fin m) (.fin s) =
      if b < a ∧ s < m ∧ r < 70 then .buy
      else if a < b ∧ m < s ∧ 30 < r then .sell
      else .neutral := by
  simp only [signalOf, flt_fin_fin]
  by_cases h1 : b < a <;> by_cases h2 : s < m <;> by_cases h3 : r < 70 <;>
    by_cases h4 : a < b <;> by_cases h5 : m < s <;> by_cases h6 : 30 < r <;>
      simp [h1, h2, h3, h4, h5, h6]

/-- Claim C1: on a last snapshot row with all five fields non-null, the
Signal Evaluator returns BUY iff ma_short > ma_long and macd > macd_signal
and rsi < 70, SELL iff ma_short < ma_long and macd < macd_signal and
rsi > 30, and NEUTRAL exactly in the remaining cases, boundary ties
included; the three cases are mutually exclusive and exhaustive. -/
theorem C1_signal_rule (a b r m s : ℚ) :
    (signalOf (.fin a) (.fin b) (.fin r) (.fin m) (.fin s) = .buy ↔
      b < a ∧ s < m ∧ r < 70) ∧
    (signalOf (.fin a) (.fin b) (.fin r) (.fin m) (.fin s) = .sell ↔
      a < b ∧ m < s ∧ 30 < r) ∧
    (signalOf (.fin a) (.fin b) (.fin r) (.fin m) (.fin s) = .neutral ↔
      ¬(b < a ∧ s < m ∧ r < 70) ∧ ¬(a < b ∧ m < s ∧ 30 < r)) := by
  rw [signalOf_fin_eq]
  split_ifs with hB hS
  · exact ⟨iff_of_true rfl hB,
      iff_of_false (by simp) (fun hS' => lt_asymm hB.1 hS'.1),
      iff_of_false (by simp) (fun hc => hc.1 hB)⟩
  · exact ⟨iff_of_false (by simp) hB, iff_of_true rfl hS,
      iff_of_false (by simp) (fun hc => hc.2 hS)⟩
  · exact ⟨iff_of_false (by simp) hB, iff_of_false (by simp) hS,
      iff_of_true rfl ⟨hB, hS⟩⟩

/-- Claim C6: when any of the five required fields of the last snapshot row
is null (NaN), the Signal Evaluator outputs NEUTRAL; being a total function
it raises nothing. -/
theorem C6_null_field_neutral :
    (∀ b r m s, signalOf .nan b r m s = .neutral) ∧
    (∀ a r m s, signalOf a .nan r m s = .neutral) ∧
    (∀ a b m s, signalOf a b .nan m s = .neutral) ∧
    (∀ a b r s, signalOf a b r .nan s = .neutral) ∧
    (∀ a b r m, signalOf a b r m .nan = .neutral) := by
  refine ⟨?_, ?_, ?_, ?_, ?_⟩ <;> intro w x y z <;>
    simp [signalOf, flt_nan_left, flt_nan_right]

/-- Claim C2, counterexample: when the MOEX price fetch returns the present
price 0.0 (not ABSENT), get_price still consults Yahoo (one invocation) and
returns the Yahoo result, so the fallback is not triggered only by absence. -/
theorem C2_counterexample :
    get_price_t (some 0) (some 257) = (some 257, 1) ∧
    some (0 : ℚ) ≠ (none : Option ℚ) := by
  constructor
  · simp [get_price_t, truthyPrice]
  · simp

/-- Claim C2 as amended: get_price consults Yahoo exactly when the MOEX
result is falsy, i.e. absent or equal to 0.0; a non-absent nonzero MOEX
price is returned with Yahoo never invoked. -/
theorem C2_price_fallback (p : ℚ) (y : Option ℚ) :
    (p ≠ 0 → get_price_t (some p) y = (some p, 0)) ∧
    get_price_t none y = (y, 1) ∧
    get_price_t (some 0) y = (y, 1) := by
  refine ⟨fun hp => ?_, rfl, ?_⟩
  · simp [get_price_t, truthyPrice, hp]
  · simp [get_price_t, truthyPrice]

/-- Witness for C2_price_fallback at a concrete nonzero price. -/
theorem C2_price_fallback_witness :
    get_price_t (some 5) (some 7) = (some 5, 0) :=
  (C2_price_fallback 5 (some 7)).1 (by norm_num)

/-- Claim C3: get_history returns a non-empty MOEX series unchanged with
zero Yahoo invocations, and falls back to Yahoo exactly on an empty MOEX
series. -/
theorem C3_history_fallback (x : ℕ × FVal) (xs ys : List (ℕ × FVal)) :
    get_history_t (x :: xs) ys = (x :: xs, 0) ∧
    get_history_t [] ys = (ys, 1) := by
  constructor <;> rfl

/-- Claim C7: when both adapters yield an empty history, build_analysis
returns the explicit no-data result, which is distinct from every report
carrying a signal; it does not default to NEUTRAL at the fetch layer. -/
theorem C7_no_data_result :
    build_analysis [] [] = Analysis.noData ∧
    build_analysis (moex_history .failure) (yahoo_history .failure) =
      Analysis.noData ∧
    build_analysis (moex_history (.ok [])) (yahoo_history (.ok [])) =
      Analysis.noData ∧
    (∀ c m5 m20 r mc ms sg,
      build_analysis [] [] ≠ Analysis.report c m5 m20 r mc ms sg) := by
  refine ⟨rfl, rfl, rfl, ?_⟩
  intro c m5 m20 r mc ms sg
  have hb : build_analysis [] [] = Analysis.noData := rfl
  rw [hb]
  simp

/-- Claim C10: when the MOEX price fetch returns exactly 0.0, get_price
falls back (one Yahoo invocation) and returns the Yahoo result, because the
fallback condition tests Python truthiness rather than absence. -/
theorem C10_zero_price_falls_back (y : Option ℚ) :
    get_price_t (some 0) y = (y, 1) ∧ get_price (some 0) y = y := by
  constructor <;> simp [get_price_t, get_price, truthyPrice]

/-- Claim C9: every modelled failure mode of the adapters (raised network or
parse exception, empty payload, empty first row, null or non-numeric cell)
collapses to ABSENT for price and to the empty series for history, and the
aggregators propagate total absence as ABSENT/empty rather than raising. -/
theorem C9_failures_collapse :
    moex_price .failure = none ∧
    moex_price (.ok []) = none ∧
    (∀ rest, moex_price (.ok ([] :: rest)) = none) ∧
    (∀ cs rest, moex_price (.ok ((Cell.null :: cs) :: rest)) = none) ∧
    (∀ cs rest, moex_price (.ok ((Cell.nonNumeric :: cs) :: rest)) = none) ∧
    moex_history .failure = [] ∧
    (∀ pre t rest,
      moex_history (.ok (pre ++ (t, Cell.nonNumeric) :: rest)) = []) ∧
    yahoo_price .failure = none ∧
    yahoo_price (.ok []) = none ∧
    yahoo_history .failure = [] ∧
    get_price (moex_price .failure) (yahoo_price .failure) = none ∧
    get_history (moex_history .failure) (yahoo_history .failure) = [] := by
  refine ⟨rfl, rfl, fun _ => rfl, fun _ _ => rfl, fun _ _ => rfl, rfl, ?_,
    rfl, rfl, rfl, rfl, rfl⟩
  intro pre t rest
  simp [moex_history, List.any_append]

/-- The property the spec asserts of every adapter-returned series: strictly
ascending timestamps (which subsumes deduplication) and no null close rows.
Stated from the spec's words, to be compared with the adapter output. -/
def specCleanSeries (l : List (ℕ × FVal)) : Prop :=
  List.Chain' (fun a b => a.1 < b.1) l ∧ ∀ p ∈ l, p.2 ≠ FVal.nan

/-- Claim C8, counterexample: an upstream payload with out-of-order rows and
a null close is returned by the MOEX history adapter as-is (null kept as a
NaN row, order untouched), violating the sorted/dedup/null-dropped spec. -/
theorem C8_counterexample :
    ¬ specCleanSeries (moex_history (.ok [(2, Cell.num 5), (1, Cell.null)])) := by
  intro h
  have hred : moex_history (.ok [(2, Cell.num 5), (1, Cell.null)]) =
      [(2, FVal.fin 5), (1, FVal.nan)] := rfl
  rw [specCleanSeries, hred] at h
  exact h.2 (1, FVal.nan) (by simp) rfl

/-- Claim C8 as amended: when no cell makes astype(float) raise, both
history adapters return the upstream rows with closes converted (null
becoming a kept NaN row), preserving upstream order and multiplicity of
timestamps; no deduplication, sorting or null-dropping is performed. -/
theorem C8_adapters_preserve_rows (rows : List (ℕ × Cell))
    (hnum : rows.any (fun p => decide (p.2 = Cell.nonNumeric)) = false) :
    moex_history (.ok rows) = rows.map (fun p => (p.1, cellVal p.2)) ∧
    yahoo_history (.ok rows) = rows.map (fun p => (p.1, cellVal p.2)) ∧
    (moex_history (.ok rows)).map Prod.fst = rows.map Prod.fst := by
  refine ⟨?_, ?_, ?_⟩
  · simp [moex_history, hnum]
  · simp [yahoo_history, hnum]
  · simp [moex_history, hnum, List.map_map]

/-- Witness for C8_adapters_preserve_rows on a concrete payload. -/
theorem C8_adapters_preserve_rows_witness :
    moex_history (.ok [(2, Cell.num 5), (1, Cell.null)]) =
      [(2, FVal.fin 5), (1, FVal.nan)] := by
  have h := (C8_adapters_preserve_rows [(2, Cell.num 5), (1, Cell.null)]
    (by decide)).1
  exact h.trans (by decide)

/-
Closed forms for the RSI pipeline on an all-finite close series.
-/

/-- getD through a range-map list. -/
lemma getD_range_map {α : Type} (f : ℕ → α) (n i : ℕ) (d : α) (h : i < n) :
    ((List.range n).map f).getD i d = f i := by
  rw [List.getD_eq_getElem?_getD, List.getElem?_map, List.getElem?_range h]
  rfl

/-- getD through map at an in-range index. -/
lemma getD_map_of_lt {α β : Type} (f : α → β) (l : List α) (i : ℕ)
    (d : α) (d' : β) (h : i < l.length) :
    (l.map f).getD i d' = f (l.getD i d) := by
  rw [List.getD_eq_getElem?_getD, List.getElem?_map,
    List.getElem?_eq_getElem h, List.getD_eq_getElem l d h]
  rfl

/-- NaN-propagating sum of finitely many finite values is the finite sum. -/
lemma fsumF_map_fin {α : Type} (f : α → ℚ) (l : List α) :
    fsumF (l.map fun a => FVal.fin (f a)) = .fin (l.map f).sum := by
  induction l with
  | nil => rfl
  | cons x xs ih =>
      have h : fsumF ((x :: xs).map fun a => FVal.fin (f a)) =
          faddF (.fin (f x)) (fsumF (xs.map fun a => FVal.fin (f a))) := rfl
      rw [h, ih]
      simp [faddF]

/-- Subtraction of finite values is finite subtraction. -/
lemma fsubF_fin (p q : ℚ) : fsubF (.fin p) (.fin q) = .fin (p - q) := by
  simp [fsubF, faddF, fnegF, sub_eq_add_neg]

/-- Division of a finite value by a finite nonzero value is finite. -/
lemma fdivF_fin_of_ne (p q : ℚ) (h : q ≠ 0) :
    fdivF (.fin p) (.fin q) = .fin (p / q) := by
  simp [fdivF, h]

/-- The gain window term at offset k of row i: the clipped one-row delta. -/
def gainTerm (cs : List ℚ) (i k : ℕ) : ℚ :=
  max (cs.getD (i - k) 0 - cs.getD (i - k - 1) 0) 0

/-- The loss window term at offset k of row i. -/
def lossTerm (cs : List ℚ) (i k : ℕ) : ℚ :=
  -(min (cs.getD (i - k) 0 - cs.getD (i - k - 1) 0) 0)

/-- The avg_gain entry at a post-warm-up row of an all-finite series is the
finite mean of the clipped deltas over the 14-row window. -/
lemma gainSeries_fin_getD (cs : List ℚ) (i : ℕ) (h14 : 14 ≤ i)
    (hi : i < cs.length) :
    (gainSeries (cs.map .fin)).getD i .nan =
      .fin (((List.range 14).map (gainTerm cs i)).sum / 14) := by
  have hxlen : (cs.map FVal.fin).length = cs.length := List.length_map cs FVal.fin
  have hdlen : (diffF (cs.map FVal.fin)).length = cs.length := by
    simp [diffF, hxlen]
  have hylen : ((diffF (cs.map FVal.fin)).map fclipLower0).length = cs.length := by
    simp [hdlen]
  unfold gainSeries rollingMeanF
  rw [getD_range_map _ _ _ _ (by rw [hylen]; exact hi)]
  rw [if_neg (by omega)]
  have hwin : (List.range 14).map
      (fun k => ((diffF (cs.map FVal.fin)).map fclipLower0).getD (i - k) .nan) =
      (List.range 14).map (fun k => FVal.fin (gainTerm cs i k)) := by
    refine List.map_congr_left ?_
    intro k hk
    have hk14 : k < 14 := List.mem_range.mp hk
    have hik : i - k < cs.length := by omega
    rw [getD_map_of_lt fclipLower0 _ _ FVal.nan _ (by rw [hdlen]; exact hik)]
    unfold diffF
    rw [getD_range_map _ _ _ _ (by rw [hxlen]; exact hik)]
    rw [if_neg (by omega)]
    rw [getD_map_of_lt FVal.fin _ _ 0 _ (by omega),
      getD_map_of_lt FVal.fin _ _ 0 _ (by omega)]
    rw [fsubF_fin]
    rfl
  rw [hwin, fsumF_map_fin, fdivF_fin_of_ne _ _ (by norm_num)]
  norm_num

/-- The avg_loss entry at a post-warm-up row of an all-finite series is the
finite mean of the negated upper-clipped deltas over the 14-row window. -/
lemma lossSeries_fin_getD (cs : List ℚ) (i : ℕ) (h14 : 14 ≤ i)
    (hi : i < cs.length) :
    (lossSeries (cs.map .fin)).getD i .nan =
      .fin (((List.range 14).map (lossTerm cs i)).sum / 14) := by
  have hxlen : (cs.map FVal.fin).length = cs.length := List.length_map cs FVal.fin
  have hdlen : (diffF (cs.map FVal.fin)).length = cs.length := by
    simp [diffF, hxlen]
  have hylen : (((diffF (cs.map FVal.fin)).map fclipUpper0).map fnegF).length = cs.length := by
    simp [hdlen]
  unfold lossSeries rollingMeanF
  rw [getD_range_map _ _ _ _ (by rw [hylen]; exact hi)]
  rw [if_neg (by omega)]
  have hwin : (List.range 14).map
      (fun k => (((diffF (cs.map FVal.fin)).map fclipUpper0).map fnegF).getD (i - k) .nan) =
      (List.range 14).map (fun k => FVal.fin (lossTerm cs i k)) := by
    refine List.map_congr_left ?_
    intro k hk
    have hk14 : k < 14 := List.mem_range.mp hk
    have hik : i - k < cs.length := by omega
    rw [getD_map_of_lt fnegF _ _ FVal.nan _ (by simp [hdlen]; exact hik)]
    rw [getD_map_of_lt fclipUpper0 _ _ FVal.nan _ (by rw [hdlen]; exact hik)]
    unfold diffF
    rw [getD_range_map _ _ _ _ (by rw [hxlen]; exact hik)]
    rw [if_neg (by omega)]
    rw [getD_map_of_lt FVal.fin _ _ 0 _ (by omega),
      getD_map_of_lt FVal.fin _ _ 0 _ (by omega)]
    rw [fsubF_fin]
    rfl
  rw [hwin, fsumF_map_fin, fdivF_fin_of_ne _ _ (by norm_num)]
  norm_num

/-- The rsi entry at a post-warm-up row of an all-finite series is the rsi
formula applied to the quotient of the two finite window means. -/
lemma rsiSeries_fin_getD (cs : List ℚ) (i : ℕ) (h14 : 14 ≤ i)
    (hi : i < cs.length) :
    (rsiSeries (cs.map .fin)).getD i .nan =
      rsiFormula (fdivF (.fin (((List.range 14).map (gainTerm cs i)).sum / 14))
        (.fin (((List.range 14).map (lossTerm cs i)).sum / 14))) := by
  unfold rsiSeries
  rw [getD_range_map _ _ _ _ (by simpa using hi)]
  rw [gainSeries_fin_getD cs i h14 hi, lossSeries_fin_getD cs i h14 hi]

/-- The rsi formula applied to rs = +inf evaluates to exactly 100:
100 - 100/(1 + inf) = 100 - 0 = 100. -/
lemma rsiFormula_inf : rsiFormula .inf = .fin 100 := by
  simp [rsiFormula, faddF, fdivF, fsubF, fnegF]

/-- The rsi formula propagates NaN: 100 - 100/(1 + NaN) = NaN. -/
lemma rsiFormula_nan : rsiFormula .nan = .nan := rfl

/-- Claim C4: on a strictly increasing close series, at every row past the
14-row warm-up the avg_loss is exactly 0, the avg_gain is a positive finite
value, and the computed rsi is exactly 100 (the division by the zero
avg_loss yields +inf, not NaN, and the formula collapses to 100). -/
theorem C4_increasing_rsi_100 (cs : List ℚ) (i : ℕ) (h14 : 14 ≤ i)
    (hi : i < cs.length)
    (hinc : ∀ j, j < cs.length - 1 → cs.getD j 0 < cs.getD (j + 1) 0) :
    (lossSeries (cs.map .fin)).getD i .nan = .fin 0 ∧
    (∃ g : ℚ, 0 < g ∧ (gainSeries (cs.map .fin)).getD i .nan = .fin g) ∧
    (rsiSeries (cs.map .fin)).getD i .nan = .fin 100 := by
  have hdelta : ∀ k, k < 14 → 0 < cs.getD (i - k) 0 - cs.getD (i - k - 1) 0 := by
    intro k hk
    have h1 : i - k - 1 < cs.length - 1 := by omega
    have h2 : (i - k - 1) + 1 = i - k := by omega
    have h3 := hinc (i - k - 1) h1
    rw [h2] at h3
    linarith
  have hloss : ((List.range 14).map (lossTerm cs i)).sum = 0 := by
    apply List.sum_eq_zero
    intro x hx
    obtain ⟨k, hk, rfl⟩ := List.mem_map.mp hx
    have hk14 := List.mem_range.mp hk
    have hd := hdelta k hk14
    unfold lossTerm
    rw [min_eq_right (le_of_lt hd)]
    simp
  have hgain : 0 < ((List.range 14).map (gainTerm cs i)).sum := by
    apply List.sum_pos
    · intro x hx
      obtain ⟨k, hk, rfl⟩ := List.mem_map.mp hx
      have hk14 := List.mem_range.mp hk
      have hd := hdelta k hk14
      unfold gainTerm
      rw [max_eq_left (le_of_lt hd)]
      exact hd
    · simp
  refine ⟨?_, ?_, ?_⟩
  · rw [lossSeries_fin_getD cs i h14 hi, hloss]
    norm_num
  · exact ⟨_, div_pos hgain (by norm_num), gainSeries_fin_getD cs i h14 hi⟩
  · rw [rsiSeries_fin_getD cs i h14 hi, hloss]
    have hz : ((0 : ℚ) / 14) = 0 := by norm_num
    rw [hz]
    have hgpos : 0 < ((List.range 14).map (gainTerm cs i)).sum / 14 :=
      div_pos hgain (by norm_num)
    have hd0 : fdivF (.fin (((List.range 14).map (gainTerm cs i)).sum / 14))
        (.fin 0) = .inf := by
      simp [fdivF, hgpos, ne_of_gt hgpos]
    rw [hd0, rsiFormula_inf]

/-- Witness for C4_increasing_rsi_100 on fifteen strictly increasing
closes. -/
theorem C4_increasing_rsi_100_witness :
    (rsiSeries (([0, 1, 2, 3, 4, 5, 6, 7, 8, 9, 10, 11, 12, 13, 14] :
      List ℚ).map .fin)).getD 14 .nan = .fin 100 :=
  (C4_increasing_rsi_100 [0, 1, 2, 3, 4, 5, 6, 7, 8, 9, 10, 11, 12, 13, 14]
    14 (by norm_num) (by decide) (by decide)).2.2

/-- Claim C5: on a constant close series, at every row past the 14-row
warm-up both avg_gain and avg_loss are exactly 0, and the rsi entry is NaN,
pandas' null marker (rs = 0/0 = NaN propagates through the formula), and in
particular the rsi is not 100 nor any other numeric value. -/
theorem C5_constant_rsi_null (cs : List ℚ) (q : ℚ) (i : ℕ)
    (hconst : ∀ j, j < cs.length → cs.getD j 0 = q)
    (h14 : 14 ≤ i) (hi : i < cs.length) :
    (gainSeries (cs.map .fin)).getD i .nan = .fin 0 ∧
    (lossSeries (cs.map .fin)).getD i .nan = .fin 0 ∧
    (rsiSeries (cs.map .fin)).getD i .nan = .nan ∧
    (∀ x : ℚ, (rsiSeries (cs.map .fin)).getD i .nan ≠ .fin x) := by
  have hdelta : ∀ k, k < 14 → cs.getD (i - k) 0 - cs.getD (i - k - 1) 0 = 0 := by
    intro k hk
    rw [hconst (i - k) (by omega), hconst (i - k - 1) (by omega)]
    ring
  have hg : ((List.range 14).map (gainTerm cs i)).sum = 0 := by
    apply List.sum_eq_zero
    intro x hx
    obtain ⟨k, hk, rfl⟩ := List.mem_map.mp hx
    have hk14 := List.mem_range.mp hk
    unfold gainTerm
    rw [hdelta k hk14]
    simp
  have hl : ((List.range 14).map (lossTerm cs i)).sum = 0 := by
    apply List.sum_eq_zero
    intro x hx
    obtain ⟨k, hk, rfl⟩ := List.mem_map.mp hx
    have hk14 := List.mem_range.mp hk
    unfold lossTerm
    rw [hdelta k hk14]
    simp
  have hz : ((0 : ℚ) / 14) = 0 := by norm_num
  have hrsi : (rsiSeries (cs.map .fin)).getD i .nan = .nan := by
    rw [rsiSeries_fin_getD cs i h14 hi, hg, hl, hz]
    have hdd : fdivF (FVal.fin 0) (FVal.fin 0) = FVal.nan := by
      simp [fdivF]
    rw [hdd, rsiFormula_nan]
  refine ⟨?_, ?_, hrsi, fun x => by rw [hrsi]; simp⟩
  · rw [gainSeries_fin_getD cs i h14 hi, hg]
    norm_num
  · rw [lossSeries_fin_getD cs i h14 hi, hl]
    norm_num

/-- Witness for C5_constant_rsi_null on fifteen equal closes. -/
theorem C5_constant_rsi_null_witness :
    (rsiSeries (([7, 7, 7, 7, 7, 7, 7, 7, 7, 7, 7, 7, 7, 7, 7] :
      List ℚ).map .fin)).getD 14 .nan = .nan :=
  (C5_constant_rsi_null [7, 7, 7, 7, 7, 7, 7, 7, 7, 7, 7, 7, 7, 7, 7]
    7 14 (by decide) (by norm_num) (by decide)).2.2.1
